import Mathlib

/-!
Verification development for the client-side upload pipeline of the Tanflare
repository: the validator (`src/shared/components/upload/utils/validation.ts`),
the upload service (`src/shared/components/upload/services/uploadService.ts`)
and the orchestrating `useUpload` hook.

The TypeScript is embedded shallowly: React state becomes an explicit
`HookState` record, every public operation becomes a pure function from state
(plus an oracle for the outcomes of asynchronous collaborators: the signature
endpoint, the transfer to the storage endpoint, and image decoding) to a new
state together with a list of observable effects (network calls, abort calls,
and callback invocations).  JS `Map`s become insertion-ordered association
lists with JS `Map` semantics.
-/

namespace Tanflare.Upload

/-! ## JS `Map` model

Insertion-ordered association list with the semantics of a JS `Map`:
`set` overwrites in place when the key is present and appends otherwise,
`delete` removes the entry, `get` finds it. -/

abbrev JsMap (α : Type) : Type := List (String × α)

def mapGet {α : Type} (m : JsMap α) (k : String) : Option α :=
  match m with
  | [] => none
  | (k', v) :: rest => if k' = k then some v else mapGet rest k

def mapSet {α : Type} (m : JsMap α) (k : String) (v : α) : JsMap α :=
  match m with
  | [] => [(k, v)]
  | (k', v') :: rest => if k' = k then (k, v) :: rest else (k', v') :: mapSet rest k v

def mapDelete {α : Type} (m : JsMap α) (k : String) : JsMap α :=
  match m with
  | [] => []
  | (k', v') :: rest => if k' = k then mapDelete rest k else (k', v') :: mapDelete rest k

/-! ## Data model (`src/shared/components/upload/types.ts`) -/

/-- A browser `File` handle: name, byte size and MIME type.  Timestamps
(`Date` values) are modelled as natural numbers throughout. -/
structure JsFile where
  name : String
  size : Nat
  type : String
deriving DecidableEq, Repr

/-- `UploadedFile` from types.ts. -/
structure UploadedFile where
  publicId : String
  url : String
  name : String
  size : Nat
  type : String
  uploadedAt : Nat
  width : Option Nat := none
  height : Option Nat := none
  format : Option String := none
  bytes : Option Nat := none
deriving DecidableEq, Repr

/-- The closed `UploadErrorCode` enum from types.ts. -/
inductive UploadErrorCode where
  | FILE_TOO_LARGE
  | FILE_TOO_SMALL
  | INVALID_FILE_TYPE
  | TOO_MANY_FILES
  | UPLOAD_FAILED
  | NETWORK_ERROR
  | TIMEOUT
  | CANCELLED
  | VALIDATION_ERROR
  | UNKNOWN_ERROR
deriving DecidableEq, Repr

/-- String value of an `UploadErrorCode` enum member (the TS enum maps each
name to the identical string, used when a code is interpolated into a
message). -/
def UploadErrorCode.str : UploadErrorCode → String
  | .FILE_TOO_LARGE => "FILE_TOO_LARGE"
  | .FILE_TOO_SMALL => "FILE_TOO_SMALL"
  | .INVALID_FILE_TYPE => "INVALID_FILE_TYPE"
  | .TOO_MANY_FILES => "TOO_MANY_FILES"
  | .UPLOAD_FAILED => "UPLOAD_FAILED"
  | .NETWORK_ERROR => "NETWORK_ERROR"
  | .TIMEOUT => "TIMEOUT"
  | .CANCELLED => "CANCELLED"
  | .VALIDATION_ERROR => "VALIDATION_ERROR"
  | .UNKNOWN_ERROR => "UNKNOWN_ERROR"

/-- `FileValidationError` from types.ts.  The TS interface types `file` as
`File`, but `validateFiles` passes `files[0]` for batch-level errors, which is
`undefined` on an empty batch; hence the field is an `Option` here. -/
structure FileValidationError where
  code : UploadErrorCode
  message : String
  file : Option JsFile
deriving DecidableEq, Repr

/-- `FileValidationResult` from types.ts. -/
structure FileValidationResult where
  isValid : Bool
  errors : List FileValidationError
deriving DecidableEq, Repr

/-- `UploadStatus` from types.ts. -/
inductive UploadStatus where
  | idle
  | pending
  | uploading
  | completed
  | error
  | retrying
  | cancelled
deriving DecidableEq, Repr

/-- `UploadProgress` from types.ts. -/
structure UploadProgress where
  fileId : String
  fileName : String
  progress : Nat
  status : UploadStatus
  error : Option String := none
  retryCount : Option Nat := none
  uploadedBytes : Option Nat := none
  totalBytes : Option Nat := none
  startTime : Option Nat := none
  endTime : Option Nat := none
deriving DecidableEq, Repr

/-- `UploadError` from types.ts (the free-form `details` record is omitted:
the upload code never writes it). -/
structure UploadError where
  file : JsFile
  error : String
  retryCount : Nat
  timestamp : Nat
  code : Option UploadErrorCode := none
deriving DecidableEq, Repr

/-- `FileValidation` from types.ts; every field is optional in TS. -/
structure FileValidation where
  maxSize : Option Nat := none
  minSize : Option Nat := none
  acceptedTypes : Option (List String) := none
  maxFiles : Option Nat := none
  minFiles : Option Nat := none
  allowedExtensions : Option (List String) := none
  blockedExtensions : Option (List String) := none
  maxWidth : Option Nat := none
  maxHeight : Option Nat := none
  minWidth : Option Nat := none
  minHeight : Option Nat := none
deriving DecidableEq, Repr

/-- The fields of `UploadBehavior` that the orchestrator logic reads
(`maxRetries` and `parallelUploads`); the remaining fields are UI text and
flags never consulted by the embedded operations. -/
structure UploadBehavior where
  maxRetries : Option Nat := none
  parallelUploads : Option Nat := none
deriving DecidableEq, Repr

/-- JS truthiness of an optional number: `undefined` and `0` are falsy. -/
def natOptTruthy : Option Nat → Bool
  | none => false
  | some n => n != 0

/-! ## Validator (`utils/validation.ts`) -/

/-- ASCII lower-casing of one character, the effect of JS
`String.prototype.toLowerCase` on the ASCII range (the only range the
embedding exercises). -/
def jsToLowerChar : Char → Char
  | 'A' => 'a' | 'B' => 'b' | 'C' => 'c' | 'D' => 'd' | 'E' => 'e' | 'F' => 'f'
  | 'G' => 'g' | 'H' => 'h' | 'I' => 'i' | 'J' => 'j' | 'K' => 'k' | 'L' => 'l'
  | 'M' => 'm' | 'N' => 'n' | 'O' => 'o' | 'P' => 'p' | 'Q' => 'q' | 'R' => 'r'
  | 'S' => 's' | 'T' => 't' | 'U' => 'u' | 'V' => 'v' | 'W' => 'w' | 'X' => 'x'
  | 'Y' => 'y' | 'Z' => 'z'
  | c => c

/-- JS `str.lastIndexOf(c)`: index of the last occurrence, `-1` if absent. -/
def lastIndexOfChar (c : Char) : List Char → Int
  | [] => -1
  | x :: xs =>
    let r := lastIndexOfChar c xs
    if r ≥ 0 then r + 1 else if x = c then 0 else -1

/-- JS `x >>> 0`: reinterpret an integer as an unsigned 32-bit value. -/
def jsToUint32 (x : Int) : Nat := (x % (2 ^ 32 : Int)).toNat

/-- `getFileExtension` from validation.ts:
`filename.slice(((filename.lastIndexOf('.') - 1) >>> 0) + 2).toLowerCase()`.
A name without a dot (or whose only dot is the leading character) yields a
slice start of at least `2^32`, hence the empty string. -/
def getFileExtension (filename : String) : String :=
  let start := jsToUint32 (lastIndexOfChar '.' filename.toList - 1) + 2
  String.mk ((filename.toList.drop start).map jsToLowerChar)

/-- `Math.floor(Math.log(bytes)/Math.log(1024))` for `bytes ≥ 1`: the number
of times 1024 divides into `bytes`.  Structural recursion on a fuel argument
(the recursion depth is logarithmic, so `bytes` itself is ample fuel). -/
def log1024Aux : Nat → Nat → Nat
  | 0, _ => 0
  | fuel + 1, b => if b < 1024 then 0 else 1 + log1024Aux fuel (b / 1024)

def log1024 (b : Nat) : Nat := log1024Aux b b

/-- `formatFileSize` from validation.ts.  The source computes
`Math.floor(Math.log(bytes)/Math.log(1024))` and
`parseFloat((bytes/1024**i).toFixed(2))` over binary64 floats; the embedding
uses exact arithmetic (an exact base-1024 logarithm and rational rounding),
which agrees except on float-rounding edge cases.  No claim inspects these
strings. -/
def formatFileSize (bytes : Nat) : String :=
  if bytes = 0 then "0 Bytes"
  else
    let sizes := ["Bytes", "KB", "MB", "GB", "TB"]
    let i := log1024 bytes
    let k := 1024 ^ i
    -- `(bytes / k).toFixed(2)` rounded half-up, then `parseFloat` strips
    -- trailing zeros: `r` is the value scaled by 100.
    let r := (bytes * 200 + k) / (2 * k)
    let ip := r / 100
    let frac := r % 100
    let numStr :=
      if frac = 0 then toString ip
      else if frac % 10 = 0 then toString ip ++ "." ++ toString (frac / 10)
      else if frac < 10 then toString ip ++ ".0" ++ toString frac
      else toString ip ++ "." ++ toString frac
    numStr ++ " " ++ sizes.getD i "undefined"

/-- The inner accept-type test of `validateFile`: an entry matches either
exactly or, when it ends in `/*`, as a prefix up to (and including) the
slash (`type.slice(0, -1)` keeps the trailing slash). -/
def mimeAccepted (acceptedTypes : List String) (fileType : String) : Bool :=
  acceptedTypes.any fun t =>
    if t.endsWith "/*" then fileType.startsWith (t.dropRight 1)
    else fileType == t

/-- `validateFile` from validation.ts: accumulates size, MIME-type and
extension errors in source order.  Each guard reproduces the JS truthiness
checks (`validation.maxSize && ...`, `arr && arr.length > 0 && ...`). -/
def validateFile (file : JsFile) (validation : FileValidation) : FileValidationResult :=
  let e1 : List FileValidationError :=
    match validation.maxSize with
    | some m =>
      if m ≠ 0 ∧ file.size > m then
        [{ code := .FILE_TOO_LARGE,
           message := "File size (" ++ formatFileSize file.size ++
             ") exceeds maximum allowed size (" ++ formatFileSize m ++ ")",
           file := some file }]
      else []
    | none => []
  let e2 : List FileValidationError :=
    match validation.minSize with
    | some m =>
      if m ≠ 0 ∧ file.size < m then
        [{ code := .FILE_TOO_SMALL,
           message := "File size (" ++ formatFileSize file.size ++
             ") is below minimum required size (" ++ formatFileSize m ++ ")",
           file := some file }]
      else []
    | none => []
  let e3 : List FileValidationError :=
    match validation.acceptedTypes with
    | some ts =>
      if ts.length > 0 ∧ ¬ mimeAccepted ts file.type then
        [{ code := .INVALID_FILE_TYPE,
           message := "File type \x22" ++ file.type ++
             "\x22 is not allowed. Accepted types: " ++ String.intercalate ", " ts,
           file := some file }]
      else []
    | none => []
  let e4 : List FileValidationError :=
    match validation.allowedExtensions with
    | some exts =>
      if exts.length > 0 ∧ ¬ exts.contains (getFileExtension file.name) then
        [{ code := .INVALID_FILE_TYPE,
           message := "File extension \x22" ++ getFileExtension file.name ++
             "\x22 is not allowed. Allowed extensions: " ++ String.intercalate ", " exts,
           file := some file }]
      else []
    | none => []
  let e5 : List FileValidationError :=
    match validation.blockedExtensions with
    | some exts =>
      if exts.length > 0 ∧ exts.contains (getFileExtension file.name) then
        [{ code := .INVALID_FILE_TYPE,
           message := "File extension \x22" ++ getFileExtension file.name ++
             "\x22 is blocked",
           file := some file }]
      else []
    | none => []
  let errors := e1 ++ e2 ++ e3 ++ e4 ++ e5
  { isValid := errors.isEmpty, errors := errors }

/-- `validateFiles` from validation.ts: batch-level count errors (with
`files[0]` as reference file) followed by the per-file errors in order. -/
def validateFiles (files : List JsFile) (validation : FileValidation) : FileValidationResult :=
  let c1 : List FileValidationError :=
    match validation.maxFiles with
    | some m =>
      if m ≠ 0 ∧ files.length > m then
        [{ code := .TOO_MANY_FILES,
           message := "Too many files selected. Maximum allowed: " ++ toString m ++
             ", selected: " ++ toString files.length,
           file := files.head? }]
      else []
    | none => []
  let c2 : List FileValidationError :=
    match validation.minFiles with
    | some m =>
      if m ≠ 0 ∧ files.length < m then
        [{ code := .VALIDATION_ERROR,
           message := "Not enough files selected. Minimum required: " ++ toString m ++
             ", selected: " ++ toString files.length,
           file := files.head? }]
      else []
    | none => []
  let errors := c1 ++ c2 ++ (files.map fun f => (validateFile f validation).errors).flatten
  { isValid := errors.isEmpty, errors := errors }

/-- `validateImageDimensions` from validation.ts.  Decoding the image is an
environment effect; the oracle `decoded` supplies its result: `none` when the
`Image` fails to load, `some (w, h)` for its natural dimensions. -/
def validateImageDimensions (file : JsFile)
    (maxWidth maxHeight minWidth minHeight : Option Nat)
    (decoded : Option (Nat × Nat)) : FileValidationResult :=
  if ¬ file.type.startsWith "image/" then { isValid := true, errors := [] }
  else
    match decoded with
    | none =>
      { isValid := false,
        errors := [{ code := .VALIDATION_ERROR,
                     message := "Failed to load image for dimension validation",
                     file := some file }] }
    | some (w, h) =>
      let e1 : List FileValidationError :=
        match maxWidth with
        | some m =>
          if m ≠ 0 ∧ w > m then
            [{ code := .VALIDATION_ERROR,
               message := "Image width (" ++ toString w ++
                 "px) exceeds maximum allowed width (" ++ toString m ++ "px)",
               file := some file }]
          else []
        | none => []
      let e2 : List FileValidationError :=
        match maxHeight with
        | some m =>
          if m ≠ 0 ∧ h > m then
            [{ code := .VALIDATION_ERROR,
               message := "Image height (" ++ toString h ++
                 "px) exceeds maximum allowed height (" ++ toString m ++ "px)",
               file := some file }]
          else []
        | none => []
      let e3 : List FileValidationError :=
        match minWidth with
        | some m =>
          if m ≠ 0 ∧ w < m then
            [{ code := .VALIDATION_ERROR,
               message := "Image width (" ++ toString w ++
                 "px) is below minimum required width (" ++ toString m ++ "px)",
               file := some file }]
          else []
        | none => []
      let e4 : List FileValidationError :=
        match minHeight with
        | some m =>
          if m ≠ 0 ∧ h < m then
            [{ code := .VALIDATION_ERROR,
               message := "Image height (" ++ toString h ++
                 "px) is below minimum required height (" ++ toString m ++ "px)",
               file := some file }]
          else []
        | none => []
      let errors := e1 ++ e2 ++ e3 ++ e4
      { isValid := errors.isEmpty, errors := errors }

/-! ## Upload service (`services/uploadService.ts`)

`UploadService.uploadFile` performs two asynchronous steps per attempt: a
POST to the signature endpoint (`getUploadSignature`) and, when that
succeeds, the XHR transfer to the storage endpoint (`performUpload`).  The
oracle `AttemptOutcome` records how one attempt resolves; the emitted
`Effect` list records which network invocations the attempt performed. -/

/-- Observable effects of the orchestrator: network calls, abort-handle
invocations, and the optional callbacks of `UploadCallbacks`.  `onError`
carries the message, the optional originating file, and the `code`/`type`
fields of the `details` record the hook passes. -/
inductive Effect where
  | signatureRequest (file : JsFile)
  | transferInvocation (file : JsFile)
  | abortCall (fileId : String)
  | onUpload (result : UploadedFile)
  | onProgress (progress : UploadProgress)
  | onError (message : String) (file : Option JsFile) (code : UploadErrorCode) (kind : String)
  | onSuccess (results : List UploadedFile)
  | onFilesChange (files : List JsFile)
  | onCancel (fileId : String)
  | onRemove (fileId : String)
deriving DecidableEq, Repr

/-- Whether an effect is an invocation of the `onError` callback (used to
state how often and with what payload the error callback fires). -/
def Effect.isOnError : Effect → Bool
  | .onError _ _ _ _ => true
  | _ => false

/-- Outcome oracle for one `uploadFile` attempt: success with the provider's
metadata, a rejection of the signature request (no transfer is started), or a
rejection of the transfer itself.  Failure messages are the raw `Error`
messages before `handleUploadError` rewrites them. -/
inductive AttemptOutcome where
  | ok (result : UploadedFile)
  | sigFailure (msg : String)
  | transferFailure (msg : String)
deriving DecidableEq, Repr

/-- The `UploadedFile` an outcome resolves with, if any. -/
def AttemptOutcome.result? : AttemptOutcome → Option UploadedFile
  | .ok r => some r
  | .sigFailure _ => none
  | .transferFailure _ => none

/-- The raw failure message of an outcome, if any. -/
def AttemptOutcome.failure? : AttemptOutcome → Option String
  | .ok _ => none
  | .sigFailure m => some m
  | .transferFailure m => some m

/-- JS `haystack.startsWith(needle)` on character lists. -/
def listStarts : List Char → List Char → Bool
  | [], _ => true
  | _ :: _, [] => false
  | a :: as, b :: bs => a == b && listStarts as bs

/-- JS `haystack.includes(needle)`. -/
def listIncludes (needle : List Char) : List Char → Bool
  | [] => needle.isEmpty
  | c :: rest => listStarts needle (c :: rest) || listIncludes needle rest

/-- JS `s.includes(pat)` on strings. -/
def strIncludes (s pat : String) : Bool := listIncludes pat.toList s.toList

/-- `UploadService.handleUploadError`: maps a raw error message to the
message of the `Error` the service rethrows (the unknown-thrown-value branch
cannot arise in the embedding, where failures always carry a message). -/
def handleUploadError (msg : String) (file : JsFile) : String :=
  if strIncludes msg "Network error" then UploadErrorCode.NETWORK_ERROR.str ++ ": " ++ msg
  else if strIncludes msg "timeout" then
    UploadErrorCode.TIMEOUT.str ++ ": Upload timeout for " ++ file.name
  else if strIncludes msg "cancelled" then
    UploadErrorCode.CANCELLED.str ++ ": Upload cancelled for " ++ file.name
  else if strIncludes msg "Invalid response" then
    UploadErrorCode.UPLOAD_FAILED.str ++ ": Invalid response from server"
  else UploadErrorCode.UPLOAD_FAILED.str ++ ": " ++ msg

/-- `UploadService.uploadFile` on one attempt outcome: the `Except` result it
resolves or rejects with, and the network effects it performed (a signature
request always; a transfer invocation unless the signature request failed). -/
def serviceUploadFile (file : JsFile) (o : AttemptOutcome) :
    Except String UploadedFile × List Effect :=
  match o with
  | .ok r => (.ok r, [.signatureRequest file, .transferInvocation file])
  | .sigFailure msg => (.error (handleUploadError msg file), [.signatureRequest file])
  | .transferFailure msg =>
    (.error (handleUploadError msg file), [.signatureRequest file, .transferInvocation file])

/-- `options.parallelUploads || 3` (`0` is falsy in JS). -/
def effParallelUploads : Option Nat → Nat
  | none => 3
  | some 0 => 3
  | some (n + 1) => n + 1

/-- The batch loop of `UploadService.uploadFiles`: files are processed in
chunks of `p`; within a chunk the successful results are pushed to `results`
and the failure messages to `errors`, in chunk order (the source settles a
chunk with `Promise.all`, so within-chunk order is the array order for
results; error-push order is the settlement order, serialised here in array
order too).  `fuel` bounds the recursion and is instantiated with the list
length, which suffices whenever `p ≥ 1`. -/
def serviceBatchLoop (p : Nat) :
    Nat → List (JsFile × AttemptOutcome) → List UploadedFile × List String × List Effect
  | _, [] => ([], [], [])
  | 0, _ => ([], [], [])
  | fuel + 1, pairs =>
    let batch := (pairs.take p).map fun fo => serviceUploadFile fo.1 fo.2
    let batchResults := batch.filterMap fun r => r.1.toOption
    let batchErrors := batch.filterMap fun r =>
      match r.1 with
      | .error m => some m
      | .ok _ => none
    let batchEffects := (batch.map fun r => r.2).flatten
    let (rs, es, efs) := serviceBatchLoop p fuel (pairs.drop p)
    (batchResults ++ rs, batchErrors ++ es, batchEffects ++ efs)

/-- `UploadService.uploadFiles`: runs the batch loop, then rejects with the
aggregate `All uploads failed` error exactly when there was at least one
failure and no success; otherwise resolves with the successful results. -/
def serviceUploadFiles (files : List JsFile) (parallelUploads : Option Nat)
    (outcomes : List AttemptOutcome) : Except String (List UploadedFile) × List Effect :=
  let p := effParallelUploads parallelUploads
  let pairs := files.zip outcomes
  let (results, errs, effs) := serviceBatchLoop p pairs.length pairs
  (if errs.length > 0 ∧ results.length = 0 then
     .error ("All uploads failed: " ++ String.intercalate ", " errs)
   else .ok results,
   effs)

/-- The failure messages `UploadService.uploadFiles` accumulates in its
`errors` array, written out per file: for each file whose attempt rejected,
the message of the `Error` produced by `uploadFile` (after
`handleUploadError`). -/
def serviceFailureMessages (files : List JsFile) (outcomes : List AttemptOutcome) :
    List String :=
  (files.zip outcomes).filterMap fun fo =>
    match (serviceUploadFile fo.1 fo.2).1 with
    | .error m => some m
    | .ok _ => none

/-- The aggregate message of the `Error` thrown when every upload failed:
`` `All uploads failed: ${errors.map((e) => e.message).join(', ')}` ``. -/
def allFailedMessage (files : List JsFile) (outcomes : List AttemptOutcome) : String :=
  "All uploads failed: " ++ String.intercalate ", " (serviceFailureMessages files outcomes)

/-! ## Orchestrator state (`hooks/useUpload.ts`) -/

/-- The mutable state of the `useUpload` hook: the five `useState` cells plus
the `activeUploadsRef` map of abort controllers (a controller handle is
modelled by mere presence). -/
structure HookState where
  selectedFiles : List JsFile
  uploadedFiles : List UploadedFile
  uploadProgress : JsMap UploadProgress
  uploadErrors : JsMap UploadError
  isUploading : Bool
  hasErrors : Bool
  activeUploads : JsMap Unit
deriving DecidableEq, Repr

/-- The initial hook state: empty lists and maps, no flags set. -/
def initialHookState : HookState :=
  { selectedFiles := [], uploadedFiles := [], uploadProgress := [],
    uploadErrors := [], isUploading := false, hasErrors := false,
    activeUploads := [] }

/-- JS `Math.round` for the non-negative arguments that arise here:
half-up rounding. -/
def jsMathRound (q : ℚ) : ℤ := ⌊q + 1 / 2⌋

/-- The `totalProgress` memo of the hook: `0` for an empty progress map,
otherwise `Math.round` of the sum of the entries' `progress` fields divided
by their number. -/
def totalProgress (uploadProgress : JsMap UploadProgress) : ℤ :=
  if uploadProgress.length = 0 then 0
  else
    let progressValues := uploadProgress.map fun e => e.2
    let total := progressValues.foldl (fun sum p => sum + p.progress) (0 : Nat)
    jsMathRound ((total : ℚ) / (progressValues.length : ℚ))

instance {ε α : Type} [DecidableEq ε] [DecidableEq α] : DecidableEq (Except ε α) :=
  fun x y =>
    match x, y with
    | .ok a, .ok b =>
      if h : a = b then isTrue (by rw [h]) else isFalse (by intro hc; cases hc; exact h rfl)
    | .error a, .error b =>
      if h : a = b then isTrue (by rw [h]) else isFalse (by intro hc; cases hc; exact h rfl)
    | .ok _, .error _ => isFalse (by intro hc; cases hc)
    | .error _, .ok _ => isFalse (by intro hc; cases hc)

/-- Result of a hook action: the new state and the effects it performed. -/
structure ActionResult where
  state : HookState
  effects : List Effect
deriving DecidableEq, Repr

/-- Result of `selectFiles`: state, effects, and the resolved boolean. -/
structure SelectFilesResult where
  state : HookState
  effects : List Effect
  ok : Bool
deriving DecidableEq, Repr

/-- Result of `uploadFiles`: state, effects, and either the resolved list of
uploaded files or the message of the rejection the caller observes. -/
structure UploadFilesResult where
  state : HookState
  effects : List Effect
  outcome : Except String (List UploadedFile)
deriving DecidableEq, Repr

/-- The dimension-gate loop of `selectFiles`: walks the files in order and
returns the error list of the first image whose
`validateImageDimensions` result is invalid (the source `return`s inside the
`for` loop), `none` when every image passes. -/
def firstDimFailure (v : FileValidation) (decode : JsFile → Option (Nat × Nat)) :
    List JsFile → Option (List FileValidationError)
  | [] => none
  | f :: rest =>
    if f.type.startsWith "image/" then
      let r := validateImageDimensions f v.maxWidth v.maxHeight v.minWidth v.minHeight (decode f)
      if r.isValid then firstDimFailure v decode rest else some r.errors
    else firstDimFailure v decode rest

/-- The image-dimension stage of `selectFiles`: the loop only runs when at
least one dimension bound is truthy (`validation.maxWidth || ...`). -/
def dimensionGate (validation : FileValidation) (decode : JsFile → Option (Nat × Nat))
    (files : List JsFile) : Option (List FileValidationError) :=
  if natOptTruthy validation.maxWidth ∨ natOptTruthy validation.maxHeight ∨
      natOptTruthy validation.minWidth ∨ natOptTruthy validation.minHeight then
    firstDimFailure validation decode files
  else none

/-- `selectFiles` from useUpload.ts: validates the passed array, then (when
any dimension bound is set) gates on image dimensions, and only then appends
the files to the previous selection.  `decode` is the image-decoding oracle.
The surrounding `try/catch` is unreachable in the embedding because every
embedded step is total. -/
def selectFiles (validation : FileValidation) (s : HookState) (files : List JsFile)
    (decode : JsFile → Option (Nat × Nat)) : SelectFilesResult :=
  let validationResult := validateFiles files validation
  if ¬ validationResult.isValid then
    { state := s,
      effects := validationResult.errors.map fun e =>
        .onError e.message e.file e.code "validation",
      ok := false }
  else
    match dimensionGate validation decode files with
    | some errs =>
      { state := s,
        effects := errs.map fun e => .onError e.message e.file e.code "validation",
        ok := false }
    | none =>
      { state := { s with selectedFiles := s.selectedFiles ++ files },
        effects := [.onFilesChange files],
        ok := true }

/-- The per-file id the hook derives from array position (`file-${index}`). -/
def fileIdOfIndex (index : Nat) : String := "file-" ++ toString index

/-- Applies a stream of fileId-tagged progress events to the progress map,
as the `onProgress` closure of `uploadFiles` does one event at a time. -/
def applyProgressEvents (m : JsMap UploadProgress)
    (events : List (String × UploadProgress)) : JsMap UploadProgress :=
  events.foldl (fun acc ev => mapSet acc ev.1 ev.2) m

/-- `uploadFiles` from useUpload.ts.  `outcomes` is the attempt oracle for
the service call (one entry per selected file, in order), `events` the
progress-event stream delivered while it runs (serialised; the claims are
insensitive to event order), `now` the clock value used for error
timestamps.  An empty selection throws before any state change; an all-fail
service rejection is caught, recorded per selected file, reported via
`onError`, and rethrown. -/
def uploadFilesHook (behavior : UploadBehavior) (s : HookState)
    (outcomes : List AttemptOutcome) (events : List (String × UploadProgress))
    (now : Nat) : UploadFilesResult :=
  if s.selectedFiles.length = 0 then
    { state := s, effects := [], outcome := .error "No files selected for upload" }
  else
    -- The source sets `isUploading = true`, `hasErrors = false` and an empty
    -- error map before awaiting the service; the operation is atomic in the
    -- embedding, so only the settled values below are observable:
    -- `isUploading` ends `false` in both paths (the `finally`), the error map
    -- was emptied and is repopulated only in the catch path, and the service
    -- closes over the render's `selectedFiles`.
    let (serviceResult, serviceEffects) :=
      serviceUploadFiles s.selectedFiles behavior.parallelUploads outcomes
    let progressEffects := events.map fun ev => Effect.onProgress ev.2
    let progressAfter := applyProgressEvents s.uploadProgress events
    match serviceResult with
    | .ok results =>
      { state := { s with
          uploadProgress := progressAfter,
          uploadedFiles := s.uploadedFiles ++ results,
          selectedFiles := [],
          uploadErrors := [],
          isUploading := false,
          hasErrors := false },
        effects := serviceEffects ++ progressEffects ++
          results.map Effect.onUpload ++ [.onSuccess results],
        outcome := .ok results }
    | .error errorMessage =>
      let entries := s.selectedFiles.enum.map fun p =>
        (fileIdOfIndex p.1,
         ({ file := p.2, error := errorMessage, retryCount := 0, timestamp := now,
            code := some .UPLOAD_FAILED } : UploadError))
      { state := { s with
          uploadProgress := progressAfter,
          uploadErrors := entries.foldl (fun m kv => mapSet m kv.1 kv.2) [],
          isUploading := false,
          hasErrors := true },
        effects := serviceEffects ++ progressEffects ++
          [.onError errorMessage none .UPLOAD_FAILED "upload"],
        outcome := .error errorMessage }

/-- `behavior.maxRetries || 3` (`0` is falsy in JS, so a configured `0`
silently falls back to the default `3`). -/
def effMaxRetries : Option Nat → Nat
  | none => 3
  | some 0 => 3
  | some (n + 1) => n + 1

/-- The message written when the retry budget is exhausted. -/
def maxRetriesMessage (maxRetries : Nat) : String :=
  "Max retries (" ++ toString maxRetries ++ ") exceeded"

/-- `retryUpload` from useUpload.ts.  Unknown `fileId` returns silently.
Otherwise the retry count is bumped; past the effective maximum the error
entry is rewritten in place and no service call happens; below it the entry
is updated and a single-file service attempt runs, whose success removes the
entry and appends the result, and whose failure rewrites the entry with the
new message and timestamp and reports via `onError`. -/
def retryUpload (behavior : UploadBehavior) (s : HookState) (fileId : String)
    (o : AttemptOutcome) (events : List UploadProgress) (now : Nat) : ActionResult :=
  match mapGet s.uploadErrors fileId with
  | none => { state := s, effects := [] }
  | some err =>
    let retryCount := err.retryCount + 1
    let maxRetries := effMaxRetries behavior.maxRetries
    if retryCount > maxRetries then
      let newError := { err with error := maxRetriesMessage maxRetries, retryCount := retryCount }
      { state := { s with uploadErrors := mapSet s.uploadErrors fileId newError },
        effects := [] }
    else
      let updatedError := { err with retryCount := retryCount }
      let s1 := { s with uploadErrors := mapSet s.uploadErrors fileId updatedError }
      let (res, netEffects) := serviceUploadFile err.file o
      let s2 := { s1 with
        uploadProgress := events.foldl (fun m p => mapSet m fileId p) s1.uploadProgress }
      let progressEffects := events.map Effect.onProgress
      match res with
      | .ok result =>
        { state := { s2 with
            uploadErrors := mapDelete s2.uploadErrors fileId,
            uploadedFiles := s2.uploadedFiles ++ [result] },
          effects := netEffects ++ progressEffects ++ [.onUpload result] }
      | .error errorMessage =>
        let newError := { err with
          error := errorMessage,
          retryCount := retryCount,
          timestamp := now }
        { state := { s2 with uploadErrors := mapSet s2.uploadErrors fileId newError },
          effects := netEffects ++ progressEffects ++
            [.onError errorMessage (some err.file) .UPLOAD_FAILED "retry"] }

/-- `cancelUpload` from useUpload.ts: aborts and drops the stored controller
when one exists, rewrites an existing progress entry's status to `cancelled`,
and always invokes `onCancel`. -/
def cancelUpload (s : HookState) (fileId : String) : ActionResult :=
  let (s1, abortEffects) :=
    match mapGet s.activeUploads fileId with
    | some _ =>
      ({ s with activeUploads := mapDelete s.activeUploads fileId },
       [Effect.abortCall fileId])
    | none => (s, ([] : List Effect))
  let newProgress :=
    match mapGet s1.uploadProgress fileId with
    | some progress => mapSet s1.uploadProgress fileId { progress with status := .cancelled }
    | none => s1.uploadProgress
  { state := { s1 with uploadProgress := newProgress },
    effects := abortEffects ++ [.onCancel fileId] }

/-- `removeFile` from useUpload.ts: filters the selection by the
position-derived id (`file-${index}`), the uploaded files by `publicId`,
and deletes the progress and error entries; `onRemove` always fires. -/
def removeFile (s : HookState) (fileId : String) : ActionResult :=
  { state := { s with
      selectedFiles := s.selectedFiles.enum.filterMap fun p =>
        if fileIdOfIndex p.1 = fileId then none else some p.2,
      uploadedFiles := s.uploadedFiles.filter fun file => file.publicId != fileId,
      uploadProgress := mapDelete s.uploadProgress fileId,
      uploadErrors := mapDelete s.uploadErrors fileId },
    effects := [.onRemove fileId] }

/-- The spec's batch aggregate, stated in its own words: "Total batch
progress is the arithmetic mean of per-file progress percentages, defined
only when at least one descriptor exists; an empty batch has progress 0".
Kept separate from `totalProgress` (which transcribes the hook's memo) so the
two can be compared. -/
def specTotalProgress (m : JsMap UploadProgress) : ℤ :=
  if m = [] then 0
  else jsMathRound ((m.map fun e => ((e.2.progress : ℚ))).sum / (m.length : ℚ))

/-! ## Concrete fixtures used by witnesses and counterexamples -/

def fA : JsFile := { name := "report.pdf", size := 100, type := "application/pdf" }

def fB : JsFile := { name := "photo.png", size := 200, type := "image/png" }

def uB : UploadedFile :=
  { publicId := "pid-b", url := "https://cdn.example/photo.png", name := "photo.png",
    size := 200, type := "image/png", uploadedAt := 9 }

/-- An error entry with no retries yet. -/
def errFresh : UploadError :=
  { file := fA, error := "UPLOAD_FAILED: boom", retryCount := 0, timestamp := 0,
    code := some .UPLOAD_FAILED }

/-- An error entry whose retry count has reached the default maximum. -/
def errSpent : UploadError :=
  { file := fA, error := "UPLOAD_FAILED: boom", retryCount := 3, timestamp := 0,
    code := some .UPLOAD_FAILED }

def sFresh : HookState := { initialHookState with uploadErrors := [("file-0", errFresh)] }

def sSpent : HookState := { initialHookState with uploadErrors := [("file-0", errSpent)] }

def sTwoSelected : HookState := { initialHookState with selectedFiles := [fA, fB] }

def sOneSelected : HookState := { initialHookState with selectedFiles := [fA] }

/-- A completed progress entry for a file with no active transfer. -/
def pDone : UploadProgress :=
  { fileId := "file-7", fileName := "photo.png", progress := 100, status := .completed }

def sDone : HookState := { initialHookState with uploadProgress := [("file-7", pDone)] }

def v9 : FileValidation := { maxFiles := some 2, minFiles := some 1 }

def noDecode : JsFile → Option (Nat × Nat) := fun _ => none

def fT1 : JsFile := { name := "t1.txt", size := 1, type := "text/plain" }

def fT2 : JsFile := { name := "t2.txt", size := 1, type := "text/plain" }

def fT3 : JsFile := { name := "t3.txt", size := 1, type := "text/plain" }

def fT4 : JsFile := { name := "t4.txt", size := 1, type := "text/plain" }

/-! ## Helper lemmas about the JS `Map` model -/

theorem mapGet_mapSet_self {α : Type} (m : JsMap α) (k : String) (v : α) :
    mapGet (mapSet m k v) k = some v := by
  induction m with
  | nil => simp [mapSet, mapGet]
  | cons hd tl ih =>
    by_cases h : hd.1 = k
    · simp [mapSet, mapGet, h]
    · simp [mapSet, mapGet, h, ih]

theorem mapGet_mapSet_ne {α : Type} (m : JsMap α) (k k' : String) (v : α) (h : k' ≠ k) :
    mapGet (mapSet m k v) k' = mapGet m k' := by
  have hk : ¬ k = k' := fun hc => h hc.symm
  induction m with
  | nil => simp [mapSet, mapGet, hk]
  | cons hd tl ih =>
    by_cases hh : hd.1 = k
    · simp [mapSet, mapGet, hh, hk]
    · simp only [mapSet, hh, if_false, mapGet, ih]

theorem mapGet_foldl_mapSet_isSome {α : Type} (entries : List (String × α)) :
    ∀ (m0 : JsMap α) (k : String),
      ((∃ v, (k, v) ∈ entries) ∨ (mapGet m0 k).isSome) →
      (mapGet (entries.foldl (fun m kv => mapSet m kv.1 kv.2) m0) k).isSome := by
  induction entries with
  | nil =>
    intro m0 k h
    rcases h with ⟨v, hv⟩ | h
    · cases hv
    · simpa using h
  | cons hd tl ih =>
    intro m0 k h
    simp only [List.foldl_cons]
    apply ih
    by_cases hk : k = hd.1
    · right
      rw [hk, mapGet_mapSet_self]
      rfl
    · rcases h with ⟨v, hv⟩ | h
      · rcases List.mem_cons.mp hv with heq | hmem
        · exact absurd (congrArg Prod.fst heq) hk
        · exact Or.inl ⟨v, hmem⟩
      · right
        rwa [mapGet_mapSet_ne _ _ _ _ hk]

theorem mapGet_some_mem {α : Type} (m : List (String × α)) (k : String) (v : α)
    (h : mapGet m k = some v) : (k, v) ∈ m := by
  induction m with
  | nil => simp [mapGet] at h
  | cons hd tl ih =>
    simp only [mapGet] at h
    by_cases hk : hd.1 = k
    · rw [if_pos hk] at h
      injection h with h
      have hhd : hd = (k, v) := by
        cases hd
        simp_all
      rw [hhd]
      exact List.mem_cons_self _ _
    · rw [if_neg hk] at h
      exact List.mem_cons_of_mem _ (ih h)

theorem mem_mapSet {α : Type} (m : List (String × α)) (k : String) (v : α) :
    ∀ kv, kv ∈ mapSet m k v → kv ∈ m ∨ kv = (k, v) := by
  induction m with
  | nil =>
    intro kv h
    simp [mapSet] at h
    exact Or.inr h
  | cons hd tl ih =>
    intro kv h
    simp only [mapSet] at h
    by_cases hk : hd.1 = k
    · rw [if_pos hk] at h
      rcases List.mem_cons.mp h with heq | hmem
      · exact Or.inr heq
      · exact Or.inl (List.mem_cons_of_mem _ hmem)
    · rw [if_neg hk] at h
      rcases List.mem_cons.mp h with heq | hmem
      · exact Or.inl (heq ▸ List.mem_cons_self _ _)
      · rcases ih kv hmem with h1 | h2
        · exact Or.inl (List.mem_cons_of_mem _ h1)
        · exact Or.inr h2

theorem mem_foldl_mapSet {α : Type} (entries : List (String × α)) :
    ∀ (m0 : List (String × α)) (kv : String × α),
      kv ∈ entries.foldl (fun m kv' => mapSet m kv'.1 kv'.2) m0 →
      kv ∈ m0 ∨ kv ∈ entries := by
  induction entries with
  | nil =>
    intro m0 kv h
    exact Or.inl h
  | cons hd tl ih =>
    intro m0 kv h
    simp only [List.foldl_cons] at h
    rcases ih (mapSet m0 hd.1 hd.2) kv h with h1 | h2
    · rcases mem_mapSet m0 hd.1 hd.2 kv h1 with hm | he
      · exact Or.inl hm
      · refine Or.inr (List.mem_cons.mpr (Or.inl ?_))
        rw [he]
    · exact Or.inr (List.mem_cons_of_mem _ h2)

theorem snd_mem_of_mem_enumFrom {α : Type} :
    ∀ (l : List α) (n : Nat) (p : Nat × α), p ∈ l.enumFrom n → p.2 ∈ l := by
  intro l
  induction l with
  | nil =>
    intro n p h
    cases h
  | cons x xs ih =>
    intro n p h
    simp only [List.enumFrom] at h
    rcases List.mem_cons.mp h with heq | hmem
    · rw [heq]
      exact List.mem_cons_self _ _
    · exact List.mem_cons_of_mem _ (ih (n + 1) p hmem)

/-! ## C1 — retry bound -/

/-- C1, counterexample.  The claim says that once a file's recorded
`retryCount` has reached the *configured* `maxRetries`, `retryUpload` makes
no signature request and no transfer.  With `maxRetries` configured as `0`
(and a fresh error entry, `retryCount = 0`), the hook evaluates
`behavior.maxRetries || 3`, so `0` is discarded for the default `3` and the
retry dispatches both a signature request and a transfer invocation. -/
theorem retryUpload_configured_max_counterexample :
    ({ maxRetries := some 0 } : UploadBehavior).maxRetries = some 0 ∧
    (mapGet sFresh.uploadErrors "file-0").map UploadError.retryCount = some 0 ∧
    Effect.signatureRequest fA ∈
      (retryUpload { maxRetries := some 0 } sFresh "file-0"
        (.transferFailure "boom") [] 5).effects ∧
    Effect.transferInvocation fA ∈
      (retryUpload { maxRetries := some 0 } sFresh "file-0"
        (.transferFailure "boom") [] 5).effects := by
  decide

/-- C1, amended: for every fileId with a recorded upload error whose
`retryCount` has reached the *effective* maximum (`behavior.maxRetries || 3`,
so a configured `0` falls back to `3`), a further `retryUpload(fileId)` call
leaves the descriptor in the error map with its message updated to
`Max retries (N) exceeded` and an incremented count, and performs no
signature request, no transfer invocation, and no callback. -/
theorem retryUpload_retry_bound (b : UploadBehavior) (s : HookState) (fileId : String)
    (e : UploadError) (o : AttemptOutcome) (events : List UploadProgress) (now : Nat)
    (hget : mapGet s.uploadErrors fileId = some e)
    (hmax : effMaxRetries b.maxRetries ≤ e.retryCount) :
    (retryUpload b s fileId o events now).effects = [] ∧
    mapGet (retryUpload b s fileId o events now).state.uploadErrors fileId =
      some ({ e with
        error := maxRetriesMessage (effMaxRetries b.maxRetries),
        retryCount := e.retryCount + 1 }) ∧
    (retryUpload b s fileId o events now).state.selectedFiles = s.selectedFiles ∧
    (retryUpload b s fileId o events now).state.uploadedFiles = s.uploadedFiles ∧
    (retryUpload b s fileId o events now).state.uploadProgress = s.uploadProgress := by
  unfold retryUpload
  rw [hget]
  simp only []
  rw [if_pos (by omega)]
  refine ⟨rfl, ?_, rfl, rfl, rfl⟩
  exact mapGet_mapSet_self _ _ _

/-- C1, witness for `retryUpload_retry_bound` at a concrete state whose error
entry has `retryCount = 3` with the default maximum 3. -/
theorem retryUpload_retry_bound_witness :
    (retryUpload {} sSpent "file-0" (.transferFailure "boom") [] 5).effects = [] ∧
    mapGet (retryUpload {} sSpent "file-0" (.transferFailure "boom") [] 5).state.uploadErrors
        "file-0" =
      some ({ errSpent with
        error := maxRetriesMessage (effMaxRetries ({} : UploadBehavior).maxRetries),
        retryCount := errSpent.retryCount + 1 }) ∧
    (retryUpload {} sSpent "file-0" (.transferFailure "boom") [] 5).state.selectedFiles =
      sSpent.selectedFiles ∧
    (retryUpload {} sSpent "file-0" (.transferFailure "boom") [] 5).state.uploadedFiles =
      sSpent.uploadedFiles ∧
    (retryUpload {} sSpent "file-0" (.transferFailure "boom") [] 5).state.uploadProgress =
      sSpent.uploadProgress :=
  retryUpload_retry_bound {} sSpent "file-0" errSpent (.transferFailure "boom") [] 5
    (by decide) (by decide)

/-! ## C2 — removeFile idempotence -/

/-- C2: the spec's idempotence property fails on the code because
`removeFile` re-derives file identity from array position.  With two
selected files, removing `file-0` removes the first file, the survivor
re-indexes to position 0, and a second `removeFile "file-0"` removes it too;
the `onRemove` callback also fires on both calls.  Evaluation of the
embedded `removeFile` at that failing input. -/
theorem removeFile_twice_not_noop :
    (removeFile sTwoSelected "file-0").state.selectedFiles = [fB] ∧
    (removeFile (removeFile sTwoSelected "file-0").state "file-0").state.selectedFiles = [] ∧
    (removeFile (removeFile sTwoSelected "file-0").state "file-0").effects =
      [.onRemove "file-0"] := by
  decide

/-! ## C10 — retryUpload on an unknown fileId -/

/-- C10: for every fileId with no entry in the upload-errors map,
`retryUpload` returns leaving the whole state unchanged, with no effects (no
signature request, no transfer invocation, no callback); being total, the
embedded operation cannot throw. -/
theorem retryUpload_unknown_fileId_noop (b : UploadBehavior) (s : HookState)
    (fileId : String) (o : AttemptOutcome) (events : List UploadProgress) (now : Nat)
    (h : mapGet s.uploadErrors fileId = none) :
    retryUpload b s fileId o events now = { state := s, effects := [] } := by
  unfold retryUpload
  rw [h]

/-- C10, witness at the empty state, whose error map has no `file-9`. -/
theorem retryUpload_unknown_fileId_noop_witness :
    retryUpload {} initialHookState "file-9" (.sigFailure "x") [] 0 =
      { state := initialHookState, effects := [] } :=
  retryUpload_unknown_fileId_noop {} initialHookState "file-9" (.sigFailure "x") [] 0
    (by decide)

/-! ## C5 — cancelUpload -/

/-- C5, counterexample.  The claim says that for a fileId with no active
transfer, `cancelUpload` is a no-op that leaves all state unchanged and
triggers no callbacks.  At a state with no stored abort controller but a
completed progress entry for `file-7`, the call rewrites that entry's status
to `cancelled` (a state change) and still invokes the `onCancel`
callback. -/
theorem cancelUpload_inactive_counterexample :
    mapGet sDone.activeUploads "file-7" = none ∧
    (cancelUpload sDone "file-7").state ≠ sDone ∧
    (cancelUpload sDone "file-7").effects = [.onCancel "file-7"] := by
  decide

/-- C5, amended: `cancelUpload(fileId)` aborts via the stored cancellation
handle exactly when one exists; when no transfer is active it performs no
abort and leaves the selection, uploaded files, errors and controllers
unchanged — but it still marks an existing progress entry `cancelled` and
always invokes the `onCancel` callback. -/
theorem cancelUpload_spec (s : HookState) (fileId : String) :
    ((mapGet s.activeUploads fileId).isSome →
        Effect.abortCall fileId ∈ (cancelUpload s fileId).effects) ∧
    (mapGet s.activeUploads fileId = none →
        Effect.abortCall fileId ∉ (cancelUpload s fileId).effects ∧
        (cancelUpload s fileId).state.selectedFiles = s.selectedFiles ∧
        (cancelUpload s fileId).state.uploadedFiles = s.uploadedFiles ∧
        (cancelUpload s fileId).state.uploadErrors = s.uploadErrors ∧
        (cancelUpload s fileId).state.activeUploads = s.activeUploads) ∧
    (∀ p, mapGet s.uploadProgress fileId = some p →
        mapGet (cancelUpload s fileId).state.uploadProgress fileId =
          some ({ p with status := .cancelled })) ∧
    (mapGet s.uploadProgress fileId = none →
        (cancelUpload s fileId).state.uploadProgress = s.uploadProgress) ∧
    Effect.onCancel fileId ∈ (cancelUpload s fileId).effects := by
  unfold cancelUpload
  cases ha : mapGet s.activeUploads fileId with
  | some c =>
    simp only [Option.isSome_some, forall_const]
    cases hp : mapGet s.uploadProgress fileId with
    | some p =>
      refine ⟨by simp, by simp, ?_, by simp [hp], by simp⟩
      intro q hq
      cases hq
      simp [hp, mapGet_mapSet_self]
    | none =>
      refine ⟨by simp, by simp, ?_, by simp [hp], by simp⟩
      intro q hq
      cases hq
  | none =>
    cases hp : mapGet s.uploadProgress fileId with
    | some p =>
      refine ⟨by simp, by simp, ?_, by simp [hp], by simp⟩
      intro q hq
      cases hq
      simp [hp, mapGet_mapSet_self]
    | none =>
      refine ⟨by simp, by simp, ?_, by simp [hp], by simp⟩
      intro q hq
      cases hq

/-- C5, witness for `cancelUpload_spec`: at `sDone` (no active transfer, one
completed progress entry) the amended description holds concretely. -/
theorem cancelUpload_spec_witness :
    ((mapGet sDone.activeUploads "file-7").isSome →
        Effect.abortCall "file-7" ∈ (cancelUpload sDone "file-7").effects) ∧
    (mapGet sDone.activeUploads "file-7" = none →
        Effect.abortCall "file-7" ∉ (cancelUpload sDone "file-7").effects ∧
        (cancelUpload sDone "file-7").state.selectedFiles = sDone.selectedFiles ∧
        (cancelUpload sDone "file-7").state.uploadedFiles = sDone.uploadedFiles ∧
        (cancelUpload sDone "file-7").state.uploadErrors = sDone.uploadErrors ∧
        (cancelUpload sDone "file-7").state.activeUploads = sDone.activeUploads) ∧
    (∀ p, mapGet sDone.uploadProgress "file-7" = some p →
        mapGet (cancelUpload sDone "file-7").state.uploadProgress "file-7" =
          some ({ p with status := .cancelled })) ∧
    (mapGet sDone.uploadProgress "file-7" = none →
        (cancelUpload sDone "file-7").state.uploadProgress = sDone.uploadProgress) ∧
    Effect.onCancel "file-7" ∈ (cancelUpload sDone "file-7").effects :=
  cancelUpload_spec sDone "file-7"

/-! ## C6 — maxSize validation -/

/-- C6, counterexample.  The claim quantifies over *every* rule set with
`maxSize` configured and promises no other size-related entry.  With
`maxSize = 5` and `minSize = 10`, a 7-byte file is strictly larger than
`maxSize`, yet `validateFile` emits both `FILE_TOO_LARGE` and
`FILE_TOO_SMALL` (the two guards are independent). -/
theorem validateFile_sizes_counterexample :
    (7 : Nat) > 5 ∧
    ((validateFile { name := "notes.txt", size := 7, type := "text/plain" }
        { maxSize := some 5, minSize := some 10 }).errors.map FileValidationError.code)
      = [.FILE_TOO_LARGE, .FILE_TOO_SMALL] := by
  decide

/-- C6, amended: for every rule set whose configured `maxSize` is positive
(JS treats a configured `0` as falsy and skips the check) and whose
`minSize`, when configured, is at most `maxSize`, every file strictly larger
than `maxSize` fails validation with a `FILE_TOO_LARGE` entry and no
`FILE_TOO_SMALL` entry. -/
theorem validateFile_maxSize_exclusive (v : FileValidation) (f : JsFile) (m : Nat)
    (hmax : v.maxSize = some m) (hpos : 0 < m)
    (hmin : ∀ n, v.minSize = some n → n ≤ m)
    (hsize : m < f.size) :
    (validateFile f v).isValid = false ∧
    UploadErrorCode.FILE_TOO_LARGE ∈ (validateFile f v).errors.map FileValidationError.code ∧
    UploadErrorCode.FILE_TOO_SMALL ∉ (validateFile f v).errors.map FileValidationError.code := by
  have hlarge : (m ≠ 0 ∧ f.size > m) := ⟨by omega, hsize⟩
  unfold validateFile
  rw [hmax]
  simp only [if_pos hlarge]
  have hsmall :
      (match v.minSize with
        | some n =>
          if n ≠ 0 ∧ f.size < n then
            [({ code := .FILE_TOO_SMALL,
                message := "File size (" ++ formatFileSize f.size ++
                  ") is below minimum required size (" ++ formatFileSize n ++ ")",
                file := some f } : FileValidationError)]
          else []
        | none => ([] : List FileValidationError)) = [] := by
    cases hms : v.minSize with
    | none => rfl
    | some n =>
      have hn := hmin n hms
      simp only []
      rw [if_neg (by omega)]
  rw [hsmall]
  refine ⟨rfl, ?_, ?_⟩
  · simp
  · intro hmem
    simp only [List.nil_append, List.map_append, List.mem_append] at hmem
    rcases hmem with (((h1 | h2) | h3) | h4) | h5
    · simp at h1
    · simp at h2
    · rcases hat : v.acceptedTypes with _ | ts
      · rw [hat] at h3
        simp at h3
      · rw [hat] at h3
        revert h3
        simp only []
        split
        · simp
        · simp
    · rcases hae : v.allowedExtensions with _ | ax
      · rw [hae] at h4
        simp at h4
      · rw [hae] at h4
        revert h4
        simp only []
        split
        · simp
        · simp
    · rcases hbe : v.blockedExtensions with _ | bx
      · rw [hbe] at h5
        simp at h5
      · rw [hbe] at h5
        revert h5
        simp only []
        split
        · simp
        · simp

/-- C6, witness for `validateFile_maxSize_exclusive` with `maxSize = 10`,
`minSize = 5` and an 11-byte file. -/
theorem validateFile_maxSize_exclusive_witness :
    (validateFile { name := "big.bin", size := 11, type := "application/octet" }
        { maxSize := some 10, minSize := some 5 }).isValid = false ∧
    UploadErrorCode.FILE_TOO_LARGE ∈
      ((validateFile { name := "big.bin", size := 11, type := "application/octet" }
        { maxSize := some 10, minSize := some 5 }).errors.map FileValidationError.code) ∧
    UploadErrorCode.FILE_TOO_SMALL ∉
      ((validateFile { name := "big.bin", size := 11, type := "application/octet" }
        { maxSize := some 10, minSize := some 5 }).errors.map FileValidationError.code) :=
  validateFile_maxSize_exclusive
    { maxSize := some 10, minSize := some 5 }
    { name := "big.bin", size := 11, type := "application/octet" } 10 rfl (by omega)
    (fun n hn => by injection hn with hn; omega) (by decide)

/-! ## C7 — extension case sensitivity -/

theorem jsToLowerChar_ne_dot (c : Char) (h : jsToLowerChar c = '.') : c = '.' := by
  unfold jsToLowerChar at h
  split at h <;> first | exact h | exact absurd h (by decide)

theorem lastIndexOfChar_dot_congr :
    ∀ (l1 l2 : List Char), l1.map jsToLowerChar = l2.map jsToLowerChar →
      lastIndexOfChar '.' l1 = lastIndexOfChar '.' l2 := by
  intro l1
  induction l1 with
  | nil =>
    intro l2 h
    cases l2 with
    | nil => rfl
    | cons b t2 => simp at h
  | cons a t ih =>
    intro l2 h
    cases l2 with
    | nil => simp at h
    | cons b t2 =>
      simp only [List.map_cons, List.cons.injEq] at h
      obtain ⟨hab, ht⟩ := h
      have hrec := ih t2 ht
      have hdot : (a = '.') ↔ (b = '.') := by
        constructor
        · intro ha
          refine jsToLowerChar_ne_dot b ?_
          rw [← hab, ha]
          decide
        · intro hb
          refine jsToLowerChar_ne_dot a ?_
          rw [hab, hb]
          decide
      simp only [lastIndexOfChar]
      rw [hrec]
      by_cases hr : lastIndexOfChar '.' t2 ≥ 0
      · simp [hr]
      · simp only [hr, if_false]
        by_cases ha : a = '.'
        · rw [if_pos ha, if_pos (hdot.mp ha)]
        · rw [if_neg ha, if_neg (fun hb => ha (hdot.mpr hb))]

theorem getFileExtension_congr (n1 n2 : String)
    (h : n1.toList.map jsToLowerChar = n2.toList.map jsToLowerChar) :
    getFileExtension n1 = getFileExtension n2 := by
  unfold getFileExtension
  rw [lastIndexOfChar_dot_congr n1.toList n2.toList h]
  simp only [List.map_drop]
  rw [h]

/-- C7, counterexample.  The claim says changing the letter case of the
configured list entries does not change whether the extension error is
emitted.  The code lower-cases the file's extension but compares it verbatim
with the configured entries, so `allowedExtensions := ["png"]` accepts
`a.png` while `allowedExtensions := ["PNG"]` rejects the very same file. -/
theorem validateFile_config_case_counterexample :
    (validateFile { name := "a.png", size := 4, type := "image/png" }
        { allowedExtensions := some ["png"] }).isValid = true ∧
    (validateFile { name := "a.png", size := 4, type := "image/png" }
        { allowedExtensions := some ["PNG"] }).isValid = false := by
  decide

/-- C7, amended: extension matching is case-insensitive in the file name
only.  For any two files that differ only in letter case of the name (same
size and type), `validateFile` emits the same error codes and messages and
the same verdict, for every configuration — including every
allowed/blocked-extensions list; the configured entries themselves are
matched case-sensitively (see the counterexample). -/
theorem validateFile_name_case_insensitive (v : FileValidation) (f g : JsFile)
    (hname : f.name.toList.map jsToLowerChar = g.name.toList.map jsToLowerChar)
    (hsize : f.size = g.size) (htype : f.type = g.type) :
    (validateFile f v).errors.map (fun e => (e.code, e.message)) =
      (validateFile g v).errors.map (fun e => (e.code, e.message)) ∧
    (validateFile f v).isValid = (validateFile g v).isValid := by
  have hext : getFileExtension f.name = getFileExtension g.name :=
    getFileExtension_congr _ _ hname
  have key : (validateFile f v).errors.map (fun e => (e.code, e.message)) =
      (validateFile g v).errors.map (fun e => (e.code, e.message)) := by
    unfold validateFile
    simp only [List.map_append]
    rw [hsize, htype, hext]
    congr 1
    congr 1
    congr 1
    congr 1
    · rcases hms : v.maxSize with _ | m
      · simp only [hms]
      · simp only [hms]
        split <;> rfl
    · rcases hms : v.minSize with _ | m
      · simp only [hms]
      · simp only [hms]
        split <;> rfl
    · rcases hms : v.acceptedTypes with _ | ts
      · simp only [hms]
      · simp only [hms]
        split <;> rfl
    · rcases hms : v.allowedExtensions with _ | ex
      · simp only [hms]
      · simp only [hms]
        split <;> rfl
    · rcases hms : v.blockedExtensions with _ | ex
      · simp only [hms]
      · simp only [hms]
        split <;> rfl
  refine ⟨key, ?_⟩
  have hlen : (validateFile f v).errors.length = (validateFile g v).errors.length := by
    have hc := congrArg List.length key
    simpa using hc
  have hval : ∀ (l1 l2 : List FileValidationError),
      l1.length = l2.length → l1.isEmpty = l2.isEmpty := by
    intro l1 l2 hl
    cases l1 <;> cases l2 <;> simp_all
  show (validateFile f v).errors.isEmpty = (validateFile g v).errors.isEmpty
  exact hval _ _ hlen

/-- C7, witness for `validateFile_name_case_insensitive`: an upper-case and a
lower-case spelling of the same name validate identically against a
lower-case allow list. -/
theorem validateFile_name_case_insensitive_witness :
    (validateFile { name := "PHOTO.PNG", size := 4, type := "image/png" }
        { allowedExtensions := some ["png"] }).errors.map (fun e => (e.code, e.message)) =
      (validateFile { name := "photo.png", size := 4, type := "image/png" }
        { allowedExtensions := some ["png"] }).errors.map (fun e => (e.code, e.message)) ∧
    (validateFile { name := "PHOTO.PNG", size := 4, type := "image/png" }
        { allowedExtensions := some ["png"] }).isValid =
      (validateFile { name := "photo.png", size := 4, type := "image/png" }
        { allowedExtensions := some ["png"] }).isValid :=
  validateFile_name_case_insensitive { allowedExtensions := some ["png"] }
    { name := "PHOTO.PNG", size := 4, type := "image/png" }
    { name := "photo.png", size := 4, type := "image/png" }
    (by decide) rfl rfl

/-! ## C8 — derived total progress -/

theorem foldl_add_progress (l : List UploadProgress) :
    ∀ a : Nat, l.foldl (fun sum p => sum + p.progress) a =
      a + (l.map fun p => p.progress).sum := by
  induction l with
  | nil => intro a; simp
  | cons hd tl ih =>
    intro a
    simp only [List.foldl_cons, List.map_cons, List.sum_cons, ih]
    omega

/-- C8: in every state, the hook's derived `totalProgress` is `0` for an
empty progress map and otherwise the (half-up) rounded arithmetic mean of
the progress percentages of all entries — the spec-side `specTotalProgress`.
In the embedding `totalProgress` is a total function of the progress map,
so it is never an error and cannot be stored independently of the map. -/
theorem totalProgress_eq_spec (m : JsMap UploadProgress) :
    totalProgress m = specTotalProgress m := by
  unfold totalProgress specTotalProgress
  by_cases hm : m = []
  · subst hm
    simp
  · have hlen : ¬ m.length = 0 := fun h => hm (List.length_eq_zero.mp h)
    rw [if_neg hlen, if_neg hm]
    have hnum : (((m.map fun e => e.2).foldl (fun sum p => sum + p.progress) (0 : Nat) : Nat) : ℚ)
        = (m.map fun e => ((e.2.progress : ℚ))).sum := by
      rw [foldl_add_progress (m.map fun e => e.2) 0, Nat.zero_add, List.map_map,
        Nat.cast_list_sum, List.map_map]
      rfl
    have hden : (((m.map fun e => e.2).length : Nat) : ℚ) = (m.length : ℚ) := by
      rw [List.length_map]
    simp only [hnum, hden]

/-! ## C9 — selectFiles appends; count limits apply per call -/

/-- C9: whenever `selectFiles(files)` resolves `true`, the new selection is
the previous one with `files` appended in order; the resolved boolean is
independent of the prior orchestrator state (so `maxFiles`/`minFiles` are
checked against the passed array alone, never the combined selection); and
concretely, with `maxFiles = 2`, two successful calls of two files each
leave four files selected. -/
theorem selectFiles_appends_and_checks_per_call :
    (∀ (v : FileValidation) (s : HookState) (files : List JsFile)
        (decode : JsFile → Option (Nat × Nat)),
        (selectFiles v s files decode).ok = true →
        (selectFiles v s files decode).state.selectedFiles = s.selectedFiles ++ files) ∧
    (∀ (v : FileValidation) (s t : HookState) (files : List JsFile)
        (decode : JsFile → Option (Nat × Nat)),
        (selectFiles v s files decode).ok = (selectFiles v t files decode).ok) ∧
    (v9.maxFiles = some 2 ∧
      (selectFiles v9 initialHookState [fT1, fT2] noDecode).ok = true ∧
      (selectFiles v9 (selectFiles v9 initialHookState [fT1, fT2] noDecode).state
          [fT3, fT4] noDecode).ok = true ∧
      (selectFiles v9 (selectFiles v9 initialHookState [fT1, fT2] noDecode).state
          [fT3, fT4] noDecode).state.selectedFiles.length = 4) := by
  refine ⟨?_, ?_, ?_⟩
  · intro v s files decode hok
    unfold selectFiles at hok ⊢
    by_cases hv : ¬ (validateFiles files v).isValid = true
    · rw [if_pos hv] at hok
      simp at hok
    · rw [if_neg hv] at hok ⊢
      rcases hg : dimensionGate v decode files with _ | errs
      · rfl
      · rw [hg] at hok
        simp at hok
  · intro v s t files decode
    unfold selectFiles
    by_cases hv : ¬ (validateFiles files v).isValid = true
    · rw [if_pos hv, if_pos hv]
    · rw [if_neg hv, if_neg hv]
      rcases hg : dimensionGate v decode files with _ | errs <;> rfl
  · decide

/-- C9, witness for the appending clause of
`selectFiles_appends_and_checks_per_call` at a concrete successful call. -/
theorem selectFiles_appends_witness :
    (selectFiles v9 initialHookState [fT1, fT2] noDecode).state.selectedFiles =
      initialHookState.selectedFiles ++ [fT1, fT2] :=
  selectFiles_appends_and_checks_per_call.1 v9 initialHookState [fT1, fT2] noDecode
    (by decide)

/-! ## Service-layer lemmas for C3 and C4 -/

theorem serviceUploadFile_toOption (f : JsFile) (o : AttemptOutcome) :
    (serviceUploadFile f o).1.toOption = o.result? := by
  cases o <;> rfl

theorem effParallelUploads_pos (o : Option Nat) : 1 ≤ effParallelUploads o := by
  rcases o with _ | k
  · decide
  · cases k
    · decide
    · simp [effParallelUploads]

/-- The batch loop, run with enough fuel and a positive chunk size, is the
per-file sweep: successful results, failure messages and network effects are
collected over all files in order. -/
theorem serviceBatchLoop_spec (p : Nat) (hp : 1 ≤ p) :
    ∀ (fuel : Nat) (pairs : List (JsFile × AttemptOutcome)), pairs.length ≤ fuel →
      serviceBatchLoop p fuel pairs =
        (pairs.filterMap fun fo => (serviceUploadFile fo.1 fo.2).1.toOption,
         pairs.filterMap fun fo =>
           match (serviceUploadFile fo.1 fo.2).1 with
           | .error m => some m
           | .ok _ => none,
         (pairs.map fun fo => (serviceUploadFile fo.1 fo.2).2).flatten) := by
  intro fuel
  induction fuel with
  | zero =>
    intro pairs hlen
    have hnil : pairs = [] := List.length_eq_zero.mp (Nat.le_zero.mp hlen)
    subst hnil
    rfl
  | succ n ih =>
    intro pairs hlen
    cases pairs with
    | nil => rfl
    | cons hd tl =>
      have hdrop : ((hd :: tl).drop p).length ≤ n := by
        rw [List.length_drop]
        simp only [List.length_cons] at hlen ⊢
        omega
      simp only [serviceBatchLoop]
      rw [ih _ hdrop]
      simp only [Prod.mk.injEq]
      refine ⟨?_, ?_, ?_⟩
      · simp only [List.filterMap_map, Function.comp_def]
        rw [← List.filterMap_append, List.take_append_drop]
      · simp only [List.filterMap_map, Function.comp_def]
        rw [← List.filterMap_append, List.take_append_drop]
      · simp only [List.map_map, Function.comp_def]
        rw [← List.flatten_append, ← List.map_append, List.take_append_drop]

/-- Collecting an outcome-dependent value over a zip of equal length ignores
the file component. -/
theorem zip_filterMap_snd {β : Type} (g : AttemptOutcome → Option β) :
    ∀ (files : List JsFile) (outcomes : List AttemptOutcome),
      files.length = outcomes.length →
      (files.zip outcomes).filterMap (fun fo => g fo.2) = outcomes.filterMap g := by
  intro files
  induction files with
  | nil =>
    intro outcomes hlen
    cases outcomes with
    | nil => rfl
    | cons o os => simp at hlen
  | cons f fs ih =>
    intro outcomes hlen
    cases outcomes with
    | nil => simp at hlen
    | cons o os =>
      have hlen' : fs.length = os.length := by
        simp only [List.length_cons] at hlen
        omega
      simp only [List.zip_cons_cons, List.filterMap_cons, ih os hlen']

/-- Over a zip of equal length, the collected results are exactly the
successful outcomes in order. -/
theorem zip_filterMap_result (files : List JsFile) (outcomes : List AttemptOutcome)
    (hlen : files.length = outcomes.length) :
    (files.zip outcomes).filterMap (fun fo => (serviceUploadFile fo.1 fo.2).1.toOption) =
      outcomes.filterMap AttemptOutcome.result? := by
  have h := zip_filterMap_snd AttemptOutcome.result? files outcomes hlen
  rw [← h]
  simp only [serviceUploadFile_toOption]

/-- A single attempt performs only network effects, never a callback:
in particular no `onError`. -/
theorem serviceUploadFile_effects_not_onError (f : JsFile) (o : AttemptOutcome) :
    ∀ e ∈ (serviceUploadFile f o).2, e.isOnError = false := by
  intro e he
  cases o with
  | ok r =>
    simp only [serviceUploadFile, List.mem_cons, List.not_mem_nil, or_false] at he
    rcases he with rfl | rfl <;> rfl
  | sigFailure m =>
    simp only [serviceUploadFile, List.mem_cons, List.not_mem_nil, or_false] at he
    rw [he]
    rfl
  | transferFailure m =>
    simp only [serviceUploadFile, List.mem_cons, List.not_mem_nil, or_false] at he
    rcases he with rfl | rfl <;> rfl

/-- The whole service batch emits no `onError` effect. -/
theorem serviceUploadFiles_effects_no_onError (files : List JsFile) (pu : Option Nat)
    (outcomes : List AttemptOutcome) :
    ((serviceUploadFiles files pu outcomes).2).filter Effect.isOnError = [] := by
  unfold serviceUploadFiles
  simp only [serviceBatchLoop_spec _ (effParallelUploads_pos pu) _ _ le_rfl]
  rw [List.filter_eq_nil_iff]
  intro e he
  rw [List.mem_flatten] at he
  obtain ⟨l, hl, hel⟩ := he
  rw [List.mem_map] at hl
  obtain ⟨fo, _, rfl⟩ := hl
  simp [serviceUploadFile_effects_not_onError fo.1 fo.2 e hel]

/-- Progress events emit only `onProgress` callbacks. -/
theorem progress_effects_no_onError (events : List (String × UploadProgress)) :
    ((events.map fun ev => Effect.onProgress ev.2).filter Effect.isOnError) = [] := by
  rw [List.filter_eq_nil_iff]
  intro e he
  rw [List.mem_map] at he
  obtain ⟨ev, _, rfl⟩ := he
  simp [Effect.isOnError]

/-- Per-result success callbacks are not `onError`. -/
theorem onUpload_effects_no_onError (results : List UploadedFile) :
    ((results.map Effect.onUpload).filter Effect.isOnError) = [] := by
  rw [List.filter_eq_nil_iff]
  intro e he
  rw [List.mem_map] at he
  obtain ⟨r, _, rfl⟩ := he
  simp [Effect.isOnError]

/-- When at least one outcome succeeds, `UploadService.uploadFiles` resolves
with exactly the successful results, in file order. -/
theorem serviceUploadFiles_ok (files : List JsFile) (pu : Option Nat)
    (outcomes : List AttemptOutcome) (hlen : files.length = outcomes.length)
    (hsucc : ∃ o ∈ outcomes, (AttemptOutcome.result? o).isSome) :
    (serviceUploadFiles files pu outcomes).1 =
      .ok (outcomes.filterMap AttemptOutcome.result?) := by
  have hres : outcomes.filterMap AttemptOutcome.result? ≠ [] := by
    obtain ⟨o, ho, hs⟩ := hsucc
    obtain ⟨r, hr⟩ := Option.isSome_iff_exists.mp hs
    intro hnil
    have hmem : r ∈ outcomes.filterMap AttemptOutcome.result? :=
      List.mem_filterMap.mpr ⟨o, ho, hr⟩
    rw [hnil] at hmem
    cases hmem
  unfold serviceUploadFiles
  simp only [serviceBatchLoop_spec _ (effParallelUploads_pos pu) _ _ le_rfl]
  rw [zip_filterMap_result files outcomes hlen]
  rw [if_neg fun hc => hres (List.length_eq_zero.mp hc.2)]

/-- When every outcome fails and the batch is nonempty,
`UploadService.uploadFiles` rejects (with the aggregate message). -/
theorem serviceUploadFiles_allfail (files : List JsFile) (pu : Option Nat)
    (outcomes : List AttemptOutcome) (hlen : files.length = outcomes.length)
    (hne : files ≠ [])
    (hall : ∀ o ∈ outcomes, AttemptOutcome.result? o = none) :
    (serviceUploadFiles files pu outcomes).1 =
      .error (allFailedMessage files outcomes) := by
  have hres : outcomes.filterMap AttemptOutcome.result? = [] :=
    List.filterMap_eq_nil_iff.mpr hall
  have herrs : ((files.zip outcomes).filterMap fun fo =>
      match (serviceUploadFile fo.1 fo.2).1 with
      | .error m => some m
      | .ok _ => none) ≠ [] := by
    cases files with
    | nil => exact absurd rfl hne
    | cons f fs =>
      cases outcomes with
      | nil => simp at hlen
      | cons o os =>
        have ho : AttemptOutcome.result? o = none := hall o (List.mem_cons_self o os)
        cases o with
        | ok r => simp [AttemptOutcome.result?] at ho
        | sigFailure m => simp [List.zip_cons_cons, List.filterMap_cons, serviceUploadFile]
        | transferFailure m =>
          simp [List.zip_cons_cons, List.filterMap_cons, serviceUploadFile]
  unfold serviceUploadFiles
  simp only [serviceBatchLoop_spec _ (effParallelUploads_pos pu) _ _ le_rfl]
  rw [zip_filterMap_result files outcomes hlen, hres]
  rw [if_pos ⟨by
    cases hcs : ((files.zip outcomes).filterMap fun fo =>
        match (serviceUploadFile fo.1 fo.2).1 with
        | .error m => some m
        | .ok _ => none) with
    | nil => exact absurd hcs herrs
    | cons a l => simp [hcs]
    , rfl⟩]
  rfl

/-! ## C3 — orchestrator boundary on failed batches -/

/-- C3, counterexample.  The claim says `uploadFiles` resolves rather than
propagating a failure, including when every file fails.  With one selected
file whose transfer fails, the service rejects with the aggregate error and
the hook's catch block rethrows it: the operation rejects. -/
theorem uploadFiles_allfail_rejects_counterexample :
    (uploadFilesHook {} sOneSelected [.transferFailure "Network error during upload"]
        [] 7).outcome =
      .error "All uploads failed: NETWORK_ERROR: Network error during upload" := by
  decide

/-- C3, amended: when every file of a nonempty batch fails, the aggregate
failure is recorded on every selected file's descriptor — each
position-derived fileId maps to an error entry whose message is the
aggregate `All uploads failed: ...` message, with `retryCount = 0`, the
current timestamp, code `UPLOAD_FAILED`, and a selected file as reference —
and reported exactly once via the error callback (the only `onError` among
the effects, carrying the aggregate message and no file reference); but the
operation then rejects, rethrowing the aggregate error to the caller.  When
at least one file succeeds, the operation resolves with the successful
subset, records no error entry at all, and invokes no error callback. -/
theorem uploadFiles_failure_policy (b : UploadBehavior) (s : HookState)
    (outcomes : List AttemptOutcome) (events : List (String × UploadProgress)) (now : Nat)
    (hne : s.selectedFiles ≠ [])
    (hlen : s.selectedFiles.length = outcomes.length) :
    ((∀ o ∈ outcomes, AttemptOutcome.result? o = none) →
        (uploadFilesHook b s outcomes events now).outcome =
          .error (allFailedMessage s.selectedFiles outcomes) ∧
        (∀ pr ∈ s.selectedFiles.enum,
          ∃ e, mapGet (uploadFilesHook b s outcomes events now).state.uploadErrors
              (fileIdOfIndex pr.1) = some e ∧
            e.error = allFailedMessage s.selectedFiles outcomes ∧
            e.retryCount = 0 ∧ e.timestamp = now ∧
            e.code = some UploadErrorCode.UPLOAD_FAILED ∧
            e.file ∈ s.selectedFiles) ∧
        (uploadFilesHook b s outcomes events now).effects.filter Effect.isOnError =
          [.onError (allFailedMessage s.selectedFiles outcomes) none
            UploadErrorCode.UPLOAD_FAILED "upload"]) ∧
    ((∃ o ∈ outcomes, (AttemptOutcome.result? o).isSome) →
        (uploadFilesHook b s outcomes events now).outcome =
          .ok (outcomes.filterMap AttemptOutcome.result?) ∧
        (uploadFilesHook b s outcomes events now).state.uploadErrors = [] ∧
        (uploadFilesHook b s outcomes events now).effects.filter Effect.isOnError = []) := by
  have hlen0 : ¬ s.selectedFiles.length = 0 := fun h => hne (List.length_eq_zero.mp h)
  constructor
  · intro hall
    have hmsg :=
      serviceUploadFiles_allfail s.selectedFiles b.parallelUploads outcomes hlen hne hall
    have heff :=
      serviceUploadFiles_effects_no_onError s.selectedFiles b.parallelUploads outcomes
    unfold uploadFilesHook
    rw [if_neg hlen0]
    rcases hsvc : serviceUploadFiles s.selectedFiles b.parallelUploads outcomes
      with ⟨svcRes, svcEffs⟩
    rw [hsvc] at hmsg heff
    simp only at hmsg heff
    subst hmsg
    refine ⟨rfl, ?_, ?_⟩
    · intro pr hpr
      have hsome := mapGet_foldl_mapSet_isSome
        (s.selectedFiles.enum.map fun p =>
          (fileIdOfIndex p.1,
           ({ file := p.2, error := allFailedMessage s.selectedFiles outcomes,
              retryCount := 0, timestamp := now,
              code := some .UPLOAD_FAILED } : UploadError)))
        [] (fileIdOfIndex pr.1) (Or.inl ⟨_, List.mem_map_of_mem _ hpr⟩)
      obtain ⟨e, he⟩ := Option.isSome_iff_exists.mp hsome
      refine ⟨e, he, ?_⟩
      have hm := mapGet_some_mem _ _ _ he
      rcases mem_foldl_mapSet _ _ _ hm with h0 | hent
      · cases h0
      · rw [List.mem_map] at hent
        obtain ⟨q, hq, heq⟩ := hent
        have he2 : e =
            ({ file := q.2,
               error := allFailedMessage s.selectedFiles outcomes,
               retryCount := 0,
               timestamp := now,
               code := some .UPLOAD_FAILED } : UploadError) :=
          (congrArg Prod.snd heq).symm
        subst he2
        refine ⟨rfl, rfl, rfl, rfl, ?_⟩
        exact snd_mem_of_mem_enumFrom s.selectedFiles 0 q hq
    · rw [List.filter_append, List.filter_append, heff,
        progress_effects_no_onError events]
      rfl
  · intro hsucc
    have hok :=
      serviceUploadFiles_ok s.selectedFiles b.parallelUploads outcomes hlen hsucc
    have heff :=
      serviceUploadFiles_effects_no_onError s.selectedFiles b.parallelUploads outcomes
    unfold uploadFilesHook
    rw [if_neg hlen0]
    rcases hsvc : serviceUploadFiles s.selectedFiles b.parallelUploads outcomes
      with ⟨svcRes, svcEffs⟩
    rw [hsvc] at hok heff
    simp only at hok heff
    subst hok
    refine ⟨rfl, rfl, ?_⟩
    rw [List.filter_append, List.filter_append, List.filter_append, heff,
      progress_effects_no_onError events,
      onUpload_effects_no_onError (outcomes.filterMap AttemptOutcome.result?)]
    rfl

/-- C3, witness for `uploadFiles_failure_policy`: the all-fail clause at a
one-file batch whose transfer fails, and the partial-success clause at a
two-file batch with one failure and one success, with every hypothesis and
antecedent discharged concretely. -/
theorem uploadFiles_failure_policy_witness :
    ((uploadFilesHook {} sOneSelected [.transferFailure "boom"] [] 7).outcome =
        .error (allFailedMessage sOneSelected.selectedFiles
          [AttemptOutcome.transferFailure "boom"]) ∧
      (∀ pr ∈ sOneSelected.selectedFiles.enum,
        ∃ e, mapGet (uploadFilesHook {} sOneSelected
              [.transferFailure "boom"] [] 7).state.uploadErrors
            (fileIdOfIndex pr.1) = some e ∧
          e.error = allFailedMessage sOneSelected.selectedFiles
            [AttemptOutcome.transferFailure "boom"] ∧
          e.retryCount = 0 ∧ e.timestamp = 7 ∧
          e.code = some UploadErrorCode.UPLOAD_FAILED ∧
          e.file ∈ sOneSelected.selectedFiles) ∧
      (uploadFilesHook {} sOneSelected [.transferFailure "boom"] [] 7).effects.filter
          Effect.isOnError =
        [.onError (allFailedMessage sOneSelected.selectedFiles
            [AttemptOutcome.transferFailure "boom"]) none
          UploadErrorCode.UPLOAD_FAILED "upload"]) ∧
    ((uploadFilesHook {} sTwoSelected [.transferFailure "boom", .ok uB] [] 7).outcome =
        .ok ([AttemptOutcome.transferFailure "boom",
          .ok uB].filterMap AttemptOutcome.result?) ∧
      (uploadFilesHook {} sTwoSelected
          [.transferFailure "boom", .ok uB] [] 7).state.uploadErrors = [] ∧
      (uploadFilesHook {} sTwoSelected
          [.transferFailure "boom", .ok uB] [] 7).effects.filter Effect.isOnError = []) :=
  ⟨(uploadFiles_failure_policy {} sOneSelected [.transferFailure "boom"] [] 7
      (by decide) (by decide)).1 (by decide),
   (uploadFiles_failure_policy {} sTwoSelected [.transferFailure "boom", .ok uB] [] 7
      (by decide) (by decide)).2 (by decide)⟩

/-! ## C4 — partial success resolves with the successful subset -/

/-- C4: for a nonempty batch with at least one success and at least one
failure, `uploadFiles` resolves with exactly the successfully uploaded
subset (in order), the success callback receives exactly that subset, and
exactly those results are appended to the uploaded-files collection. -/
theorem uploadFiles_partial_success (b : UploadBehavior) (s : HookState)
    (outcomes : List AttemptOutcome) (events : List (String × UploadProgress)) (now : Nat)
    (hne : s.selectedFiles ≠ [])
    (hlen : s.selectedFiles.length = outcomes.length)
    (hsucc : ∃ o ∈ outcomes, (AttemptOutcome.result? o).isSome)
    (_hfail : ∃ o ∈ outcomes, (AttemptOutcome.failure? o).isSome) :
    (uploadFilesHook b s outcomes events now).outcome =
      .ok (outcomes.filterMap AttemptOutcome.result?) ∧
    Effect.onSuccess (outcomes.filterMap AttemptOutcome.result?) ∈
      (uploadFilesHook b s outcomes events now).effects ∧
    (uploadFilesHook b s outcomes events now).state.uploadedFiles =
      s.uploadedFiles ++ outcomes.filterMap AttemptOutcome.result? := by
  have hlen0 : ¬ s.selectedFiles.length = 0 := fun h => hne (List.length_eq_zero.mp h)
  have hok :=
    serviceUploadFiles_ok s.selectedFiles b.parallelUploads outcomes hlen hsucc
  unfold uploadFilesHook
  rw [if_neg hlen0]
  rcases hsvc : serviceUploadFiles s.selectedFiles b.parallelUploads outcomes
    with ⟨svcRes, svcEffs⟩
  rw [hsvc] at hok
  simp only at hok
  subst hok
  refine ⟨rfl, ?_, rfl⟩
  simp

/-- C4, witness for `uploadFiles_partial_success`: a two-file batch where the
first file fails and the second succeeds. -/
theorem uploadFiles_partial_success_witness :
    (uploadFilesHook {} sTwoSelected [.transferFailure "boom", .ok uB] [] 7).outcome =
      .ok ([AttemptOutcome.transferFailure "boom", .ok uB].filterMap AttemptOutcome.result?) ∧
    Effect.onSuccess ([AttemptOutcome.transferFailure "boom", .ok uB].filterMap
        AttemptOutcome.result?) ∈
      (uploadFilesHook {} sTwoSelected [.transferFailure "boom", .ok uB] [] 7).effects ∧
    (uploadFilesHook {} sTwoSelected [.transferFailure "boom", .ok uB] [] 7).state.uploadedFiles =
      sTwoSelected.uploadedFiles ++
        [AttemptOutcome.transferFailure "boom", .ok uB].filterMap AttemptOutcome.result? :=
  uploadFiles_partial_success {} sTwoSelected [.transferFailure "boom", .ok uB] [] 7
    (by decide) (by decide) (by decide) (by decide)

end Tanflare.Upload
